import Mathlib

/-!
Verification development for the VoteNet evaluation script (src/eval.py) and
its AP/NMS evaluation engine.  The orchestration script is in the repository;
the evaluation-logic module it imports (ap_helper: APCalculator,
parse_predictions, parse_groundtruths, and the NMS utilities) is not part of
the snapshot, so those components are modelled from the specification, as
marked on each definition.  Geometry is kept abstract: an overlap/IoU metric
is any function `Box → Box → ℚ`, which covers the 3D-IoU, 2D-projected-IoU
and legacy intersection-over-box2-area metrics the configuration selects.
-/

/-- A scored, class-labelled box proposal handed to the NMS engine.  `idx` is
the proposal's index in the original proposal array (the NMS utilities return
the retained indices). -/
structure Proposal (Box : Type) where
  idx : ℕ
  cls : ℕ
  box : Box
  score : ℚ
deriving DecidableEq

/-- Modelled from the spec (§4.2 NMS Engine): the suppression test.  A kept
proposal `p` discards a remaining candidate `q` when their overlap under the
configured metric exceeds the threshold, optionally restricted to candidates
of the same class (`clsScoped`). -/
def nmsSuppress {Box : Type} (ov : Box → Box → ℚ) (clsScoped : Bool) (thr : ℚ)
    (p q : Proposal Box) : Bool :=
  (!clsScoped || p.cls == q.cls) && decide (thr < ov p.box q.box)

/-- Modelled from the spec (§4.2 NMS Engine): the greedy loop on a
score-sorted candidate list — emit the head as kept, discard every remaining
candidate it suppresses, repeat. -/
def nmsLoop {Box : Type} (ov : Box → Box → ℚ) (clsScoped : Bool) (thr : ℚ) :
    List (Proposal Box) → List (Proposal Box)
  | [] => []
  | p :: rest =>
    p :: nmsLoop ov clsScoped thr (rest.filter (fun q => !nmsSuppress ov clsScoped thr p q))
termination_by l => l.length
decreasing_by
  simp only [List.length_cons]
  exact Nat.lt_succ_of_le (List.length_filter_le _ _)

/-- Descending-score order on proposals (higher score first). -/
def scoreGe {Box : Type} (a b : Proposal Box) : Prop := b.score ≤ a.score

instance {Box : Type} : DecidableRel (@scoreGe Box) :=
  fun a b => inferInstanceAs (Decidable (b.score ≤ a.score))

instance {Box : Type} : IsTotal (Proposal Box) scoreGe :=
  ⟨fun a b => le_total b.score a.score⟩

instance {Box : Type} : IsTrans (Proposal Box) scoreGe :=
  ⟨fun _ _ _ h1 h2 => le_trans h2 h1⟩

/-- Modelled from the spec (§4.2 NMS Engine): sort by descending score, then
run the greedy suppression loop. -/
def nms {Box : Type} (ov : Box → Box → ℚ) (clsScoped : Bool) (thr : ℚ)
    (props : List (Proposal Box)) : List (Proposal Box) :=
  nmsLoop ov clsScoped thr (List.insertionSort scoreGe props)

/-- Modelled from the spec (§4.4 step): remove the first ground-truth box in
the unmatched pool whose IoU with the prediction box `p` meets or exceeds the
threshold (inclusive boundary); `none` when no unmatched ground truth
qualifies. -/
def claimFirstGt {Box : Type} (iou : Box → Box → ℚ) (thr : ℚ) (p : Box) :
    List Box → Option (List Box)
  | [] => none
  | g :: gs =>
    if thr ≤ iou p g then some gs
    else (claimFirstGt iou thr p gs).map (fun gs2 => g :: gs2)

/-- Modelled from the spec (§4.4 step): greedy true-positive/false-positive
flags for predictions processed in the given (descending-confidence) order
against a pool of unmatched ground-truth boxes.  A prediction is a true
positive exactly when it claims an unmatched ground-truth box; the claimed
box leaves the pool. -/
def greedyMatch {Box : Type} (iou : Box → Box → ℚ) (thr : ℚ) :
    List Box → List Box → List Bool
  | _, [] => []
  | gts, p :: ps =>
    match claimFirstGt iou thr p gts with
    | some gts2 => true :: greedyMatch iou thr gts2 ps
    | none => false :: greedyMatch iou thr gts ps

/-- The pool of still-unmatched ground-truth boxes after the greedy matcher
has processed the given prediction boxes. -/
def remainingGts {Box : Type} (iou : Box → Box → ℚ) (thr : ℚ) :
    List Box → List Box → List Box
  | gts, [] => gts
  | gts, p :: ps =>
    match claimFirstGt iou thr p gts with
    | some gts2 => remainingGts iou thr gts2 ps
    | none => remainingGts iou thr gts ps

/-- Descending order on (confidence, box) pairs (higher confidence first). -/
def confGe {Box : Type} (a b : ℚ × Box) : Prop := b.1 ≤ a.1

instance {Box : Type} : DecidableRel (@confGe Box) :=
  fun a b => inferInstanceAs (Decidable (b.1 ≤ a.1))

instance {Box : Type} : IsTotal (ℚ × Box) confGe :=
  ⟨fun a b => le_total b.1 a.1⟩

instance {Box : Type} : IsTrans (ℚ × Box) confGe :=
  ⟨fun _ _ _ h1 h2 => le_trans h2 h1⟩

/-- Sort (confidence, box) pairs by descending confidence. -/
def sortByConf {Box : Type} (l : List (ℚ × Box)) : List (ℚ × Box) :=
  List.insertionSort confGe l

/-- One prediction entry of a per-sample Detection List: class label, box,
confidence score. -/
structure PredBox (Box : Type) where
  cls : ℕ
  box : Box
  score : ℚ
deriving DecidableEq

/-- One entry of a per-sample Groundtruth List: class label and box. -/
structure GtBox (Box : Type) where
  cls : ℕ
  box : Box
deriving DecidableEq

/-- Modelled from the spec (§3 Per-class Accumulator): a growing list of
(confidence, is-true-positive, sample-id) records plus a running count of
ground-truth instances seen for the class. -/
structure ClsAcc where
  records : List (ℚ × Bool × ℕ) := []
  gtCount : ℕ := 0
deriving DecidableEq

/-- Modelled from the spec (§4.4 AP Calculator state): a fixed IoU threshold,
one per-class accumulator per class label (index `c` of `accs` is class `c`),
and a monotonically increasing sample-id counter. -/
structure APCalculator where
  iou_thresh : ℚ
  accs : List ClsAcc
  nextSampleId : ℕ
deriving DecidableEq

/-- A fresh APCalculator for `numClasses` classes at threshold `thr`. -/
def APCalculator.start (thr : ℚ) (numClasses : ℕ) : APCalculator :=
  ⟨thr, List.replicate numClasses {}, 0⟩

/-- The class-`c` predictions of a sample, as (confidence, box) pairs. -/
def classPreds {Box : Type} (preds : List (PredBox Box)) (c : ℕ) : List (ℚ × Box) :=
  (preds.filter (fun p => p.cls == c)).map (fun p => (p.score, p.box))

/-- The class-`c` ground-truth boxes of a sample. -/
def classGts {Box : Type} (gts : List (GtBox Box)) (c : ℕ) : List Box :=
  (gts.filter (fun g => g.cls == c)).map GtBox.box

/-- Modelled from the spec (§4.4 step): the per-sample, per-class update of
one class accumulator — sort that class's predictions by descending
confidence, match them greedily against that class's ground-truth boxes,
append one (score, is-tp, sample-id) record per prediction and add the
class's ground-truth count. -/
def stepClass {Box : Type} (iou : Box → Box → ℚ) (thr : ℚ) (sid : ℕ)
    (preds : List (PredBox Box)) (gts : List (GtBox Box)) (c : ℕ) (acc : ClsAcc) : ClsAcc :=
  let sorted := sortByConf (classPreds preds c)
  let flags := greedyMatch iou thr (classGts gts c) (sorted.map Prod.snd)
  { records := acc.records ++ (sorted.zip flags).map (fun sf => (sf.1.1, sf.2, sid)),
    gtCount := acc.gtCount + (classGts gts c).length }

/-- Apply the per-class update to every class accumulator; the first argument
is the class label of the head accumulator. -/
def stepAccs {Box : Type} (iou : Box → Box → ℚ) (thr : ℚ) (sid : ℕ)
    (preds : List (PredBox Box)) (gts : List (GtBox Box)) :
    ℕ → List ClsAcc → List ClsAcc
  | _, [] => []
  | c, a :: rest =>
    stepClass iou thr sid preds gts c a :: stepAccs iou thr sid preds gts (c + 1) rest

/-- Modelled from the spec (§4.4 step): ingest one sample — assign it a fresh
sample-id and update every class accumulator. -/
def APCalculator.stepSample {Box : Type} (iou : Box → Box → ℚ)
    (pg : List (PredBox Box) × List (GtBox Box)) (s : APCalculator) : APCalculator :=
  { s with
    accs := stepAccs iou s.iou_thresh s.nextSampleId pg.1 pg.2 0 s.accs,
    nextSampleId := s.nextSampleId + 1 }

/-- One batch: the per-sample prediction lists zipped with the parallel
per-sample ground-truth lists (`batch_pred_map_cls` and `batch_gt_map_cls`). -/
abbrev Batch (Box : Type) := List (List (PredBox Box) × List (GtBox Box))

/-- Modelled from the spec (§4.4 step): ingest one batch, sample by sample. -/
def APCalculator.step {Box : Type} (iou : Box → Box → ℚ) (batch : Batch Box)
    (s : APCalculator) : APCalculator :=
  batch.foldl (fun st pg => APCalculator.stepSample iou pg st) s

/-- Number of true-positive records in a record list. -/
def tpCount (l : List (ℚ × Bool × ℕ)) : ℕ :=
  l.countP (fun r => r.2.1)

/-- Descending order on accumulator records (higher confidence first). -/
def recGe (a b : ℚ × Bool × ℕ) : Prop := b.1 ≤ a.1

instance : DecidableRel recGe :=
  fun a b => inferInstanceAs (Decidable (b.1 ≤ a.1))

instance : IsTotal (ℚ × Bool × ℕ) recGe :=
  ⟨fun a b => le_total b.1 a.1⟩

instance : IsTrans (ℚ × Bool × ℕ) recGe :=
  ⟨fun _ _ _ h1 h2 => le_trans h2 h1⟩

/-- Sort accumulator records by descending confidence. -/
def sortRecords (l : List (ℚ × Bool × ℕ)) : List (ℚ × Bool × ℕ) :=
  List.insertionSort recGe l

/-- Modelled from the spec (§4.4 compute_metrics): the (precision, is-tp) pair
at each rank of a score-sorted flag list; `tp` and `k` are the true-positive
count and the rank already consumed. -/
def precs (tp k : ℕ) : List Bool → List (ℚ × Bool)
  | [] => []
  | f :: fs =>
    let tp2 := if f then tp + 1 else tp
    ((tp2 : ℚ) / ((k : ℚ) + 1), f) :: precs tp2 (k + 1) fs

/-- The maximum precision appearing in a suffix of the ranked list (0 for the
empty suffix). -/
def suffMax : List (ℚ × Bool) → ℚ
  | [] => 0
  | x :: rest => max x.1 (suffMax rest)

/-- Modelled from the spec (§4.4 compute_metrics): monotonic-envelope AP sum —
each true positive contributes the maximum precision at its own or any later
rank. -/
def apSum : List (ℚ × Bool) → ℚ
  | [] => 0
  | x :: rest => (if x.2 then max x.1 (suffMax rest) else 0) + apSum rest

/-- Modelled from the spec (§4.4 compute_metrics): the Average Precision of
one class accumulator — full-curve interpolation, normalized by the class's
ground-truth count. -/
def classAP (acc : ClsAcc) : ℚ :=
  apSum (precs 0 0 ((sortRecords acc.records).map (fun r => r.2.1))) / (acc.gtCount : ℚ)

/-- Modelled from the spec (§4.4 compute_metrics): the per-class AP entries,
restricted to classes with at least one recorded ground-truth instance; the
first argument is the class label of the head accumulator. -/
def apsFrom : ℕ → List ClsAcc → List (ℕ × ℚ)
  | _, [] => []
  | c, a :: rest =>
    if 0 < a.gtCount then (c, classAP a) :: apsFrom (c + 1) rest
    else apsFrom (c + 1) rest

/-- The metrics report: one AP entry per evaluated class, plus the mean AP
over exactly those classes. -/
structure Metrics where
  aps : List (ℕ × ℚ)
  mAP : ℚ
deriving DecidableEq

/-- Modelled from the spec (§4.4 compute_metrics): a pure read of the
accumulated state — the state is returned unchanged next to the report.
Classes with zero ground-truth instances are excluded from the mean. -/
def APCalculator.compute_metrics (s : APCalculator) : APCalculator × Metrics :=
  let aps := apsFrom 0 s.accs
  (s, { aps := aps, mAP := (aps.map Prod.snd).sum / (aps.length : ℚ) })

/-- Replace the records of class `c`, keeping its ground-truth count (used to
state that a zero-ground-truth class's predictions cannot affect the mean). -/
def setClassRecords (s : APCalculator) (c : ℕ) (recs : List (ℚ × Bool × ℕ)) : APCalculator :=
  match s.accs[c]? with
  | some a => { s with accs := s.accs.set c { a with records := recs } }
  | none => s

/-- Run a schedule of (calculator index, batch) step operations over a list of
independent AP calculators, as the per-batch loop of evaluate_one_epoch does
(src/eval.py lines 227-230 feed every calculator the same parsed batch). -/
def runSchedule {Box : Type} (iou : Box → Box → ℚ) :
    List (ℕ × Batch Box) → List APCalculator → List APCalculator
  | [], calcs => calcs
  | ib :: rest, calcs =>
    runSchedule iou rest
      (match calcs[ib.1]? with
       | some s => calcs.set ib.1 (APCalculator.step iou ib.2 s)
       | none => calcs)

/-- The batches a schedule feeds to calculator `j`, in schedule order. -/
def batchesFor {Box : Type} (sched : List (ℕ × Batch Box)) (j : ℕ) : List (Batch Box) :=
  (sched.filter (fun ib => ib.1 == j)).map Prod.snd

/-- Command-line flags of eval.py with their argparse defaults
(src/eval.py lines 25-53).  Only the fields the claims touch are carried;
numeric defaults are the exact rationals behind the decimal literals. -/
structure Flags where
  checkpoint_path : Option String := none
  dataset : String := "sunrgbd"
  use_3d_nms : Bool := false
  use_cls_nms : Bool := false
  use_old_type_nms : Bool := false
  per_class_proposal : Bool := false
  nms_iou : ℚ := 1/4
  conf_thresh : ℚ := 1/20
  faster_eval : Bool := false
  compute_false_stat : Bool := false
  obj_pos_prob : ℚ := 1/2
  obj_neg_prob : ℚ := 1/2
deriving DecidableEq

/-- The flags as parsed when no command-line arguments are supplied. -/
def defaultFlags : Flags := {}

/-- The evaluation configuration dictionary passed to parse_predictions and
parse_groundtruths (CONFIG_DICT, src/eval.py lines 140-142). -/
structure ConfigDict where
  remove_empty_box : Bool
  use_3d_nms : Bool
  nms_iou : ℚ
  use_old_type_nms : Bool
  cls_nms : Bool
  per_class_proposal : Bool
  conf_thresh : ℚ
deriving DecidableEq

/-- CONFIG_DICT construction (src/eval.py lines 140-142): remove_empty_box is
the negation of faster_eval; the NMS/confidence fields are passed through. -/
def mkConfigDict (f : Flags) : ConfigDict :=
  { remove_empty_box := !f.faster_eval
    use_3d_nms := f.use_3d_nms
    nms_iou := f.nms_iou
    use_old_type_nms := f.use_old_type_nms
    cls_nms := f.use_cls_nms
    per_class_proposal := f.per_class_proposal
    conf_thresh := f.conf_thresh }

/-- The phases of eval.py's module top level and main entry, in source
order. -/
inductive StartupPhase
  | flagCheck
  | checkpointCheck
  | dumpDirPrep
  | datasetLoad
  | dataloaderBuild
  | modelBuild
  | checkpointLoad
  | configBuild
  | batchProcessing
deriving DecidableEq

/-- Module top level of eval.py in source order: per-class-NMS flag validation
(lines 55-56), checkpoint-path assert (line 63), dump-dir preparation
(lines 68-70), dataset construction (lines 80-99, exits on an unknown
dataset), dataloader (line 100), model build (lines 104-123), checkpoint load
(lines 129-137), CONFIG_DICT (lines 140-142), then the batch loop of eval().
Returns the phases completed before the first failure, and the failure when
one occurs. -/
def startupTrace (f : Flags) : List StartupPhase × Option String :=
  if f.use_cls_nms && !f.use_3d_nms then
    ([], some "AssertionError: use_cls_nms requires use_3d_nms")
  else if f.checkpoint_path = none then
    ([StartupPhase.flagCheck], some "AssertionError: checkpoint_path is None")
  else if f.dataset ≠ "sunrgbd" ∧ f.dataset ≠ "scannet" then
    ([StartupPhase.flagCheck, StartupPhase.checkpointCheck, StartupPhase.dumpDirPrep],
     some "exit(-1): unknown dataset")
  else
    ([StartupPhase.flagCheck, StartupPhase.checkpointCheck, StartupPhase.dumpDirPrep,
      StartupPhase.datasetLoad, StartupPhase.dataloaderBuild, StartupPhase.modelBuild,
      StartupPhase.checkpointLoad, StartupPhase.configBuild, StartupPhase.batchProcessing],
     none)

/-- Python float division: raises ZeroDivisionError on a zero denominator
(the `.item()` calls in eval.py produce plain Python floats, so the `/` at
src/eval.py lines 204-219 is Python float division, not a numpy array
operation). -/
def pyDiv (a b : ℚ) : Except String ℚ :=
  if b = 0 then Except.error "ZeroDivisionError: float division by zero"
  else Except.ok (a / b)

/-- The objectness statistics accumulated by evaluate_one_epoch when
compute_false_stat is set (src/eval.py lines 147-163), keyed as in
stat_dict. -/
structure StatDict where
  objectness_total_gt_pos : ℚ := 0
  objectness_total_gt_neg : ℚ := 0
  objectness_total_det_pos : ℚ := 0
  objectness_total_det_neg : ℚ := 0
  objectness_total_tp : ℚ := 0
  objectness_total_tn : ℚ := 0
  objectness_total_fp : ℚ := 0
  objectness_total_fn : ℚ := 0
  objectness_pos_prec : ℚ := 0
  objectness_pos_rec : ℚ := 0
  objectness_neg_prec : ℚ := 0
  objectness_neg_rec : ℚ := 0
  objectness_pos_err_rate : ℚ := 0
  objectness_fp_rate : ℚ := 0
  objectness_neg_err_rate : ℚ := 0
  objectness_fn_rate : ℚ := 0
deriving DecidableEq

/-- Detected-positive mask: probability strictly above obj_pos_prob
(src/eval.py line 188). -/
def detPosMask (posProb : ℚ) (prob : List (List ℚ)) : List (List ℤ) :=
  prob.map (List.map (fun x => if posProb < x then 1 else 0))

/-- Detected-negative mask: probability strictly below obj_neg_prob
(src/eval.py line 189). -/
def detNegMask (negProb : ℚ) (prob : List (List ℚ)) : List (List ℤ) :=
  prob.map (List.map (fun x => if x < negProb then 1 else 0))

/-- Elementwise difference of two integer matrices (line 191's
`objectness_mask.long() - objectness_label`). -/
def matSub (a b : List (List ℤ)) : List (List ℤ) :=
  List.zipWith (List.zipWith (fun x y => x - y)) a b

/-- Elementwise product of two integer matrices (lines 196-199). -/
def matMul (a b : List (List ℤ)) : List (List ℤ) :=
  List.zipWith (List.zipWith (fun x y => x * y)) a b

/-- Sum of all entries of an integer matrix (`.sum().item()`). -/
def matSum (m : List (List ℤ)) : ℤ :=
  (m.map List.sum).sum

/-- The compute_false_stat block of evaluate_one_epoch
(src/eval.py lines 184-219) for one batch, in source order: the eight
running totals divided by the batch size (lines 204-211), then the eight
precision/recall/error-rate ratios divided by the current batch's totals
(lines 212-219).  Every division is Python float division (`pyDiv`).
`prob` is the per-proposal positive-objectness probability (B rows of
num_proposal entries), `label` is objectness_label and `mask` is
objectness_mask. -/
def falseStatUpdate (posProb negProb : ℚ) (prob : List (List ℚ))
    (label mask : List (List ℤ)) (st : StatDict) : Except String StatDict := do
  let batchSize : ℚ := (prob.length : ℚ)
  let dp := detPosMask posProb prob
  let dn := detNegMask negProb prob
  let gp := label
  let gn := matSub mask label
  let curGtPos : ℚ := (matSum gp : ℚ)
  let curGtNeg : ℚ := (matSum gn : ℚ)
  let curDetPos : ℚ := (matSum dp : ℚ)
  let curDetNeg : ℚ := (matSum dn : ℚ)
  let curTp : ℚ := (matSum (matMul dp gp) : ℚ)
  let curTn : ℚ := (matSum (matMul dn gn) : ℚ)
  let curFp : ℚ := (matSum (matMul dp gn) : ℚ)
  let curFn : ℚ := (matSum (matMul dn gp) : ℚ)
  let a1 ← pyDiv curGtPos batchSize
  let a2 ← pyDiv curGtNeg batchSize
  let a3 ← pyDiv curDetPos batchSize
  let a4 ← pyDiv curDetNeg batchSize
  let a5 ← pyDiv curTp batchSize
  let a6 ← pyDiv curTn batchSize
  let a7 ← pyDiv curFp batchSize
  let a8 ← pyDiv curFn batchSize
  let r1 ← pyDiv curTp curDetPos
  let r2 ← pyDiv curTp curGtPos
  let r3 ← pyDiv curTn curDetNeg
  let r4 ← pyDiv curTn curGtNeg
  let r5 ← pyDiv curFp curDetPos
  let r6 ← pyDiv curFp curGtNeg
  let r7 ← pyDiv curFn curDetNeg
  let r8 ← pyDiv curFn curGtPos
  return { st with
    objectness_total_gt_pos := st.objectness_total_gt_pos + a1
    objectness_total_gt_neg := st.objectness_total_gt_neg + a2
    objectness_total_det_pos := st.objectness_total_det_pos + a3
    objectness_total_det_neg := st.objectness_total_det_neg + a4
    objectness_total_tp := st.objectness_total_tp + a5
    objectness_total_tn := st.objectness_total_tn + a6
    objectness_total_fp := st.objectness_total_fp + a7
    objectness_total_fn := st.objectness_total_fn + a8
    objectness_pos_prec := st.objectness_pos_prec + r1
    objectness_pos_rec := st.objectness_pos_rec + r2
    objectness_neg_prec := st.objectness_neg_prec + r3
    objectness_neg_rec := st.objectness_neg_rec + r4
    objectness_pos_err_rate := st.objectness_pos_err_rate + r5
    objectness_fp_rate := st.objectness_fp_rate + r6
    objectness_neg_err_rate := st.objectness_neg_err_rate + r7
    objectness_fn_rate := st.objectness_fn_rate + r8 }

/-- Control flow of evaluate_one_epoch (src/eval.py lines 145-248) for the
empty-dataloader claim, with each batch abstracted to its loss contribution.
After the batch loop, the statistics-logging loop (lines 237-238) divides
each stat_dict entry by `batch_idx + 1` — with zero batches, stat_dict is
nonempty exactly when compute_false_stat pre-populated it (lines 147-163),
and the loop body then reads the unbound loop variable batch_idx (NameError);
with an empty stat_dict the loop body never runs, and the mean-loss line
(line 247) instead fails looking up the never-inserted key loss (KeyError,
raised before batch_idx would be read).  With at least one batch, batch_idx
is bound, stat_dict holds the accumulated loss, and the mean loss is
returned. -/
def evaluateOneEpochLoss (computeFalseStat : Bool) (batchLosses : List ℚ) : Except String ℚ :=
  let statKeysNonempty := computeFalseStat || !batchLosses.isEmpty
  if statKeysNonempty && batchLosses.isEmpty then
    Except.error "NameError: name batch_idx is not defined"
  else if batchLosses.isEmpty then
    Except.error "KeyError: loss"
  else
    Except.ok (batchLosses.sum / (batchLosses.length : ℚ))

/-- A concrete IoU on token boxes (ℕ labels): 1 when equal, 0 otherwise.
Used only to evaluate the general theorems at concrete inputs. -/
def exIou (a b : ℕ) : ℚ := if a = b then 1 else 0

/-- A concrete prediction list for evaluating theorems. -/
def exPreds : List (PredBox ℕ) := [⟨0, 5, 9/10⟩]

/-- A concrete ground-truth list for evaluating theorems. -/
def exGts : List (GtBox ℕ) := [⟨0, 5⟩]

/-- A concrete accumulated APCalculator state: class 0 has one ground-truth
instance and one true-positive record, class 1 has a prediction record but no
ground truth. -/
def exCalc : APCalculator := ⟨1/2, [⟨[(1, true, 0)], 1⟩, ⟨[(9/10, false, 0)], 0⟩], 1⟩

/-- A concrete one-sample batch. -/
def exBatchA : Batch ℕ := [([⟨0, 5, 9/10⟩], [⟨0, 5⟩])]

/-- A second concrete one-sample batch. -/
def exBatchB : Batch ℕ := [([], [⟨1, 7⟩])]

/-- Two fresh calculators at different thresholds, as eval.py builds one per
AP IoU threshold (src/eval.py lines 164-165). -/
def exCalcs : List APCalculator := [APCalculator.start (1/4) 2, APCalculator.start (1/2) 2]

/-- An interleaved schedule feeding both batches, in order, to both
calculators. -/
def exSched : List (ℕ × Batch ℕ) :=
  [(1, exBatchA), (0, exBatchA), (0, exBatchB), (1, exBatchB)]

theorem nmsLoop_sublist {Box : Type} (ov : Box → Box → ℚ) (clsScoped : Bool) (thr : ℚ) :
    ∀ l : List (Proposal Box), (nmsLoop ov clsScoped thr l).Sublist l
  | [] => by simp [nmsLoop]
  | p :: rest => by
    rw [nmsLoop]
    exact ((nmsLoop_sublist ov clsScoped thr _).trans (List.filter_sublist rest)).cons₂ p
termination_by l => l.length
decreasing_by
  simp only [List.length_cons]
  exact Nat.lt_succ_of_le (List.length_filter_le _ _)

theorem nmsLoop_pairwise {Box : Type} (ov : Box → Box → ℚ) (clsScoped : Bool) (thr : ℚ) :
    ∀ l : List (Proposal Box),
      (nmsLoop ov clsScoped thr l).Pairwise
        (fun a b => nmsSuppress ov clsScoped thr a b = false)
  | [] => by simp [nmsLoop]
  | p :: rest => by
    rw [nmsLoop]
    refine List.Pairwise.cons ?_ (nmsLoop_pairwise ov clsScoped thr _)
    intro b hb
    have hmem := (nmsLoop_sublist ov clsScoped thr _).subset hb
    have := (List.mem_filter.mp hmem).2
    simpa using this
termination_by l => l.length
decreasing_by
  simp only [List.length_cons]
  exact Nat.lt_succ_of_le (List.length_filter_le _ _)

theorem nmsSuppress_eq_false {Box : Type} {ov : Box → Box → ℚ} {clsScoped : Bool} {thr : ℚ}
    {a b : Proposal Box} (h : nmsSuppress ov clsScoped thr a b = false) :
    (clsScoped = false ∨ a.cls = b.cls) → ov a.box b.box ≤ thr := by
  intro hcls
  by_contra hgt
  have hsup : nmsSuppress ov clsScoped thr a b = true := by
    rcases hcls with hc | hc
    · simp [nmsSuppress, hc, not_le.mp hgt]
    · simp [nmsSuppress, hc, not_le.mp hgt]
  rw [hsup] at h
  exact Bool.noConfusion h

/-- C2: for every input list of scored proposals, every suppression threshold
and every configuration (the overlap metric `ov` ranges over all metrics, so
in particular over 3D IoU, 2D projected IoU and the legacy
intersection-over-box2-area metric; `clsScoped` selects per-class versus
cross-class suppression), the NMS output is a subset of the input, returns
each retained entry at most as often as the input holds it (so each retained
index exactly once when input indices are distinct), and never contains two
kept boxes — of the same class when class-scoped — whose overlap, as the
greedy pass evaluates it (kept box against later-kept box), exceeds the
threshold. -/
theorem nms_subset_unique_no_overlap {Box : Type} [DecidableEq Box]
    (ov : Box → Box → ℚ) (clsScoped : Bool) (thr : ℚ) (props : List (Proposal Box)) :
    (∀ x ∈ nms ov clsScoped thr props, x ∈ props)
    ∧ (∀ x, (nms ov clsScoped thr props).count x ≤ props.count x)
    ∧ ((props.map Proposal.idx).Nodup → ((nms ov clsScoped thr props).map Proposal.idx).Nodup)
    ∧ (nms ov clsScoped thr props).Pairwise
        (fun a b => (clsScoped = false ∨ a.cls = b.cls) → ov a.box b.box ≤ thr) := by
  have hsub : (nms ov clsScoped thr props).Sublist (List.insertionSort scoreGe props) :=
    nmsLoop_sublist ov clsScoped thr _
  have hperm : (List.insertionSort scoreGe props).Perm props :=
    List.perm_insertionSort scoreGe props
  refine ⟨?_, ?_, ?_, ?_⟩
  · intro x hx
    exact hperm.subset (hsub.subset hx)
  · intro x
    exact (hsub.count_le x).trans (le_of_eq (hperm.count_eq x))
  · intro hnd
    have hnd2 : ((List.insertionSort scoreGe props).map Proposal.idx).Nodup :=
      ((hperm.map Proposal.idx).nodup_iff).mpr hnd
    exact (hsub.map Proposal.idx).nodup hnd2
  · exact (nmsLoop_pairwise ov clsScoped thr _).imp (fun h => nmsSuppress_eq_false h)

theorem claimFirstGt_isSome_iff {Box : Type} (iou : Box → Box → ℚ) (thr : ℚ) (p : Box) :
    ∀ gts : List Box, (claimFirstGt iou thr p gts).isSome ↔ ∃ g ∈ gts, thr ≤ iou p g
  | [] => by simp [claimFirstGt]
  | g :: gs => by
    by_cases h : thr ≤ iou p g
    · simp only [claimFirstGt, if_pos h]
      exact iff_of_true rfl ⟨g, List.mem_cons_self g gs, h⟩
    · simp only [claimFirstGt, if_neg h, Option.isSome_map']
      rw [claimFirstGt_isSome_iff iou thr p gs]
      constructor
      · rintro ⟨g2, hg2, hle⟩
        exact ⟨g2, List.mem_cons_of_mem g hg2, hle⟩
      · rintro ⟨g2, hg2, hle⟩
        rcases List.mem_cons.mp hg2 with rfl | hg2
        · exact absurd hle h
        · exact ⟨g2, hg2, hle⟩

theorem claimFirstGt_length {Box : Type} (iou : Box → Box → ℚ) (thr : ℚ) (p : Box) :
    ∀ {gts gts2 : List Box}, claimFirstGt iou thr p gts = some gts2 →
      gts2.length + 1 = gts.length
  | [], _, h => by simp [claimFirstGt] at h
  | g :: gs, gts2, h => by
    by_cases hle : thr ≤ iou p g
    · simp only [claimFirstGt, if_pos hle, Option.some.injEq] at h
      simp [← h]
    · simp only [claimFirstGt, if_neg hle, Option.map_eq_some'] at h
      rcases h with ⟨y, hy, rfl⟩
      have := claimFirstGt_length iou thr p hy
      simp only [List.length_cons]
      omega

theorem greedyMatch_length {Box : Type} (iou : Box → Box → ℚ) (thr : ℚ) :
    ∀ (preds gts : List Box), (greedyMatch iou thr gts preds).length = preds.length
  | [], _ => by simp [greedyMatch]
  | p :: ps, gts => by
    rcases hc : claimFirstGt iou thr p gts with _ | gts2
    · simp [greedyMatch, hc, greedyMatch_length iou thr ps gts]
    · simp [greedyMatch, hc, greedyMatch_length iou thr ps gts2]

theorem greedyMatch_count_true_le {Box : Type} (iou : Box → Box → ℚ) (thr : ℚ) :
    ∀ (preds gts : List Box), (greedyMatch iou thr gts preds).count true ≤ gts.length
  | [], _ => by simp [greedyMatch]
  | p :: ps, gts => by
    rcases hc : claimFirstGt iou thr p gts with _ | gts2
    · have h1 := greedyMatch_count_true_le iou thr ps gts
      simp only [greedyMatch, hc]
      simpa using h1
    · have h1 := greedyMatch_count_true_le iou thr ps gts2
      have h2 := claimFirstGt_length iou thr p hc
      simp only [greedyMatch, hc]
      simp only [List.count_cons, beq_self_eq_true, if_true]
      omega

theorem greedyMatch_getElem_iff {Box : Type} (iou : Box → Box → ℚ) (thr : ℚ) :
    ∀ (preds gts : List Box) (i : ℕ) (hi : i < preds.length),
      ((greedyMatch iou thr gts preds)[i]? = some true ↔
        ∃ g ∈ remainingGts iou thr gts (preds.take i), thr ≤ iou (preds.get ⟨i, hi⟩) g)
  | [], _, i, hi => by simp at hi
  | p :: ps, gts, 0, hi => by
    rcases hc : claimFirstGt iou thr p gts with _ | gts2
    · simp only [greedyMatch, hc, List.take_zero, remainingGts, List.getElem?_cons_zero,
        Option.some.injEq, List.get]
      have := (claimFirstGt_isSome_iff iou thr p gts).not
      simp only [hc, Option.isSome_none, Bool.false_eq_true, false_iff] at this
      simpa using this
    · simp only [greedyMatch, hc, List.take_zero, remainingGts, List.getElem?_cons_zero,
        Option.some.injEq, List.get]
      have := claimFirstGt_isSome_iff iou thr p gts
      simp only [hc, Option.isSome_some, true_iff] at this
      simpa using this
  | p :: ps, gts, i + 1, hi => by
    have hi2 : i < ps.length := by simpa using hi
    rcases hc : claimFirstGt iou thr p gts with _ | gts2
    · simp only [greedyMatch, hc, List.take_succ_cons, remainingGts, List.getElem?_cons_succ]
      exact greedyMatch_getElem_iff iou thr ps gts i hi2
    · simp only [greedyMatch, hc, List.take_succ_cons, remainingGts, List.getElem?_cons_succ]
      exact greedyMatch_getElem_iff iou thr ps gts2 i hi2

/-- C1: in APCalculator.step, for every sample and class, the class's
predictions are matched in descending-confidence order (the list handed to
the matcher is sorted high-to-low and is a permutation of the class's
predictions) greedily against not-yet-matched same-class ground-truth boxes:
a prediction's record is a true positive if and only if its IoU with some
still-unmatched ground-truth box of the class meets or exceeds the threshold
(inclusive boundary), each ground-truth box is consumed by at most one
prediction (true positives never exceed the class's ground-truth count), and
every other prediction of the class is recorded as a false positive. -/
theorem step_greedy_matching {Box : Type} (iou : Box → Box → ℚ) (thr : ℚ) (sid : ℕ)
    (preds : List (PredBox Box)) (gts : List (GtBox Box)) (c : ℕ) (acc : ClsAcc) (i : ℕ)
    (hi : i < (sortByConf (classPreds preds c)).length) :
    List.Sorted confGe (sortByConf (classPreds preds c))
    ∧ (sortByConf (classPreds preds c)).Perm (classPreds preds c)
    ∧ (stepClass iou thr sid preds gts c acc).records
        = acc.records
          ++ ((sortByConf (classPreds preds c)).zip
              (greedyMatch iou thr (classGts gts c)
                ((sortByConf (classPreds preds c)).map Prod.snd))).map
             (fun sf => (sf.1.1, sf.2, sid))
    ∧ ((greedyMatch iou thr (classGts gts c)
          ((sortByConf (classPreds preds c)).map Prod.snd))[i]? = some true ↔
        ∃ g ∈ remainingGts iou thr (classGts gts c)
            (((sortByConf (classPreds preds c)).map Prod.snd).take i),
          thr ≤ iou (((sortByConf (classPreds preds c)).map Prod.snd).get
            ⟨i, by simpa using hi⟩) g)
    ∧ (greedyMatch iou thr (classGts gts c)
        ((sortByConf (classPreds preds c)).map Prod.snd)).count true
        ≤ (classGts gts c).length := by
  refine ⟨List.sorted_insertionSort confGe _, List.perm_insertionSort confGe _, rfl, ?_, ?_⟩
  · exact greedyMatch_getElem_iff iou thr _ (classGts gts c) i (by simpa using hi)
  · exact greedyMatch_count_true_le iou thr _ (classGts gts c)

theorem tp_zip_le {Box : Type} (sid : ℕ) :
    ∀ (a : List (ℚ × Box)) (b : List Bool),
      tpCount ((a.zip b).map (fun sf => (sf.1.1, sf.2, sid))) ≤ b.count true
  | [], _ => by simp [tpCount]
  | _ :: _, [] => by simp [tpCount]
  | x :: xs, f :: fs => by
    have ih := tp_zip_le sid xs fs
    cases f
    · simpa [tpCount, List.countP_cons, List.count_cons] using ih
    · simp only [tpCount, List.zip_cons_cons, List.map_cons, List.countP_cons,
        List.count_cons] at ih ⊢
      simp only [beq_self_eq_true, if_true]
      omega

theorem stepClass_gtCount {Box : Type} (iou : Box → Box → ℚ) (thr : ℚ) (sid : ℕ)
    (preds : List (PredBox Box)) (gts : List (GtBox Box)) (c : ℕ) (acc : ClsAcc) :
    (stepClass iou thr sid preds gts c acc).gtCount
      = acc.gtCount + (classGts gts c).length := rfl

theorem stepClass_tpCount_le {Box : Type} (iou : Box → Box → ℚ) (thr : ℚ) (sid : ℕ)
    (preds : List (PredBox Box)) (gts : List (GtBox Box)) (c : ℕ) (acc : ClsAcc) :
    tpCount (stepClass iou thr sid preds gts c acc).records
      ≤ tpCount acc.records + (classGts gts c).length := by
  have h2 := @tp_zip_le Box sid (sortByConf (classPreds preds c))
    (greedyMatch iou thr (classGts gts c) ((sortByConf (classPreds preds c)).map Prod.snd))
  have h3 := greedyMatch_count_true_le iou thr
    ((sortByConf (classPreds preds c)).map Prod.snd) (classGts gts c)
  simp only [stepClass, tpCount, List.countP_append]
  simp only [tpCount] at h2
  omega

theorem stepAccs_getElem {Box : Type} (iou : Box → Box → ℚ) (thr : ℚ) (sid : ℕ)
    (preds : List (PredBox Box)) (gts : List (GtBox Box)) :
    ∀ (l : List ClsAcc) (c0 j : ℕ),
      (stepAccs iou thr sid preds gts c0 l)[j]?
        = l[j]?.map (stepClass iou thr sid preds gts (c0 + j))
  | [], c0, j => by simp [stepAccs]
  | a :: rest, c0, 0 => by simp [stepAccs]
  | a :: rest, c0, j + 1 => by
    simp only [stepAccs, List.getElem?_cons_succ]
    rw [stepAccs_getElem iou thr sid preds gts rest (c0 + 1) j]
    have hidx : c0 + 1 + j = c0 + (j + 1) := by omega
    rw [hidx]

theorem stepSample_getElem {Box : Type} (iou : Box → Box → ℚ)
    (pg : List (PredBox Box) × List (GtBox Box)) (s : APCalculator) (c : ℕ) :
    (APCalculator.stepSample iou pg s).accs[c]?
      = s.accs[c]?.map (stepClass iou s.iou_thresh s.nextSampleId pg.1 pg.2 c) := by
  show (stepAccs iou s.iou_thresh s.nextSampleId pg.1 pg.2 0 s.accs)[c]? = _
  rw [stepAccs_getElem iou s.iou_thresh s.nextSampleId pg.1 pg.2 s.accs 0 c]
  simp

theorem step_gtCount_mono {Box : Type} (iou : Box → Box → ℚ) (c : ℕ) :
    ∀ (batch : Batch Box) (s : APCalculator) (a a2 : ClsAcc),
      s.accs[c]? = some a → (APCalculator.step iou batch s).accs[c]? = some a2 →
      a.gtCount ≤ a2.gtCount
  | [], s, a, a2, h1, h2 => by
    have h3 : s.accs[c]? = some a2 := h2
    rw [h1] at h3
    cases h3
    exact le_refl _
  | pg :: rest, s, a, a2, h1, h2 => by
    have hs : (APCalculator.stepSample iou pg s).accs[c]?
        = some (stepClass iou s.iou_thresh s.nextSampleId pg.1 pg.2 c a) := by
      rw [stepSample_getElem, h1]
      rfl
    have h2b : (APCalculator.step iou rest (APCalculator.stepSample iou pg s)).accs[c]?
        = some a2 := h2
    have ih := step_gtCount_mono iou c rest (APCalculator.stepSample iou pg s) _ a2 hs h2b
    have hle : a.gtCount ≤ (stepClass iou s.iou_thresh s.nextSampleId pg.1 pg.2 c a).gtCount := by
      rw [stepClass_gtCount]
      omega
    exact le_trans hle ih

theorem step_preserves_tp_le {Box : Type} (iou : Box → Box → ℚ) :
    ∀ (batch : Batch Box) (s : APCalculator),
      (∀ (c : ℕ) (a : ClsAcc), s.accs[c]? = some a → tpCount a.records ≤ a.gtCount) →
      ∀ (c : ℕ) (a : ClsAcc), (APCalculator.step iou batch s).accs[c]? = some a →
        tpCount a.records ≤ a.gtCount
  | [], _, hinv => hinv
  | pg :: rest, s, hinv => by
    apply step_preserves_tp_le iou rest (APCalculator.stepSample iou pg s)
    intro c a ha
    rw [stepSample_getElem] at ha
    rcases hmem : s.accs[c]? with _ | a0
    · rw [hmem] at ha
      cases ha
    · rw [hmem] at ha
      simp only [Option.map_some', Option.some.injEq] at ha
      subst ha
      have h1 := hinv c a0 hmem
      have h2 := stepClass_tpCount_le iou s.iou_thresh s.nextSampleId pg.1 pg.2 c a0
      rw [stepClass_gtCount]
      omega

theorem foldl_step_preserves_tp_le {Box : Type} (iou : Box → Box → ℚ) :
    ∀ (batches : List (Batch Box)) (s : APCalculator),
      (∀ (c : ℕ) (a : ClsAcc), s.accs[c]? = some a → tpCount a.records ≤ a.gtCount) →
      ∀ (c : ℕ) (a : ClsAcc),
        (batches.foldl (fun st b => APCalculator.step iou b st) s).accs[c]? = some a →
        tpCount a.records ≤ a.gtCount
  | [], _, hinv => hinv
  | b :: rest, s, hinv => by
    apply foldl_step_preserves_tp_le iou rest (APCalculator.step iou b s)
    exact step_preserves_tp_le iou b s hinv

/-- C6: for every class, across any sequence of step calls, the class's
recorded ground-truth-instance count never decreases, and in the state
reached from a fresh calculator by any sequence of batches, the number of
true-positive records of the class never exceeds its ground-truth-instance
count. -/
theorem apcalculator_accumulator_invariants {Box : Type} (iou : Box → Box → ℚ)
    (thr : ℚ) (K : ℕ) (batches : List (Batch Box)) (c : ℕ) :
    (∀ (s : APCalculator) (batch : Batch Box) (a a2 : ClsAcc),
        s.accs[c]? = some a → (APCalculator.step iou batch s).accs[c]? = some a2 →
        a.gtCount ≤ a2.gtCount)
    ∧ (∀ a : ClsAcc,
        (batches.foldl (fun st b => APCalculator.step iou b st)
          (APCalculator.start thr K)).accs[c]? = some a →
        tpCount a.records ≤ a.gtCount) := by
  constructor
  · intro s batch a a2 h1 h2
    exact step_gtCount_mono iou c batch s a a2 h1 h2
  · intro a ha
    apply foldl_step_preserves_tp_le iou batches (APCalculator.start thr K) ?_ c a ha
    intro c2 a2 h2
    simp only [APCalculator.start, List.getElem?_replicate] at h2
    split at h2
    · cases h2
      simp [tpCount]
    · cases h2

theorem apsFrom_mem :
    ∀ (l : List ClsAcc) (c0 x : ℕ) (v : ℚ),
      ((x, v) ∈ apsFrom c0 l ↔
        ∃ (i : ℕ) (acc : ClsAcc),
          x = c0 + i ∧ l[i]? = some acc ∧ 0 < acc.gtCount ∧ v = classAP acc)
  | [], c0, x, v => by simp [apsFrom]
  | b :: rest, c0, x, v => by
    have ih := apsFrom_mem rest (c0 + 1) x v
    by_cases hb : 0 < b.gtCount
    · simp only [apsFrom, if_pos hb, List.mem_cons, Prod.mk.injEq, ih]
      constructor
      · rintro (⟨rfl, rfl⟩ | ⟨j, acc, rfl, hj, hgt, rfl⟩)
        · exact ⟨0, b, by omega, by simp, hb, rfl⟩
        · exact ⟨j + 1, acc, by omega, by simpa using hj, hgt, rfl⟩
      · rintro ⟨i, acc, rfl, hi, hgt, rfl⟩
        rcases i with _ | j
        · left
          simp only [List.getElem?_cons_zero, Option.some.injEq] at hi
          subst hi
          exact ⟨by omega, rfl⟩
        · right
          exact ⟨j, acc, by omega, by simpa using hi, hgt, rfl⟩
    · simp only [apsFrom, if_neg hb, ih]
      constructor
      · rintro ⟨j, acc, rfl, hj, hgt, rfl⟩
        exact ⟨j + 1, acc, by omega, by simpa using hj, hgt, rfl⟩
      · rintro ⟨i, acc, rfl, hi, hgt, rfl⟩
        rcases i with _ | j
        · simp only [List.getElem?_cons_zero, Option.some.injEq] at hi
          subst hi
          exact absurd hgt hb
        · exact ⟨j, acc, by omega, by simpa using hi, hgt, rfl⟩

theorem apsFrom_set_zero_gt :
    ∀ (l : List ClsAcc) (c0 j : ℕ) (a na : ClsAcc),
      l[j]? = some a → a.gtCount = 0 → na.gtCount = 0 →
      apsFrom c0 (l.set j na) = apsFrom c0 l
  | [], _, j, a, na, h, _, _ => by simp at h
  | b :: rest, c0, 0, a, na, h, ha, hna => by
    simp only [List.getElem?_cons_zero, Option.some.injEq] at h
    have hb0 : b.gtCount = 0 := by rw [h]; exact ha
    rw [List.set_cons_zero]
    simp only [apsFrom, if_neg (by omega : ¬ 0 < na.gtCount),
      if_neg (by omega : ¬ 0 < b.gtCount)]
  | b :: rest, c0, j + 1, a, na, h, ha, hna => by
    simp only [List.getElem?_cons_succ] at h
    simp only [List.set_cons_succ, apsFrom]
    rw [apsFrom_set_zero_gt rest (c0 + 1) j a na h ha hna]

/-- C3: compute_metrics evaluates (and averages) APs exactly for the classes
with at least one recorded ground-truth instance: a class appears among the
AP entries if and only if its ground-truth count is positive, and for a class
with zero ground-truth instances the entire report — in particular the mAP
mean — is unchanged no matter what prediction records that class holds, so
such a class contributes no division by zero and no value to the mean (all
arithmetic is total over ℚ). -/
theorem compute_metrics_zero_gt_excluded (s : APCalculator) (c : ℕ) (acc : ClsAcc)
    (h : s.accs[c]? = some acc) :
    ((∃ v : ℚ, (c, v) ∈ (APCalculator.compute_metrics s).2.aps) ↔ 0 < acc.gtCount)
    ∧ (acc.gtCount = 0 →
        ∀ recs : List (ℚ × Bool × ℕ),
          (APCalculator.compute_metrics (setClassRecords s c recs)).2
            = (APCalculator.compute_metrics s).2) := by
  constructor
  · constructor
    · rintro ⟨v, hv⟩
      rw [show (APCalculator.compute_metrics s).2.aps = apsFrom 0 s.accs from rfl] at hv
      rcases (apsFrom_mem s.accs 0 c v).mp hv with ⟨i, acc2, hci, hi, hgt, _⟩
      have : i = c := by omega
      subst this
      rw [h] at hi
      cases hi
      exact hgt
    · intro hgt
      refine ⟨classAP acc, ?_⟩
      rw [show (APCalculator.compute_metrics s).2.aps = apsFrom 0 s.accs from rfl]
      exact (apsFrom_mem s.accs 0 c (classAP acc)).mpr ⟨c, acc, by omega, h, hgt, rfl⟩
  · intro hgt recs
    have hset : (setClassRecords s c recs).accs = s.accs.set c { acc with records := recs } := by
      simp [setClassRecords, h]
    have heq : apsFrom 0 (setClassRecords s c recs).accs = apsFrom 0 s.accs := by
      rw [hset]
      exact apsFrom_set_zero_gt s.accs 0 c acc { acc with records := recs } h hgt hgt
    show (⟨apsFrom 0 (setClassRecords s c recs).accs, _⟩ : Metrics) = ⟨apsFrom 0 s.accs, _⟩
    rw [heq]

/-- C3 witness: in the concrete state `exCalc`, class 0 (one ground-truth
instance) appears among the AP entries. -/
theorem compute_metrics_zero_gt_excluded_witness :
    (∃ v : ℚ, (0, v) ∈ (APCalculator.compute_metrics exCalc).2.aps) ↔
      0 < (⟨[(1, true, 0)], 1⟩ : ClsAcc).gtCount :=
  (compute_metrics_zero_gt_excluded exCalc 0 ⟨[(1, true, 0)], 1⟩ rfl).1

/-- C7: compute_metrics is a pure read of the accumulated state — it returns
the state unchanged, and a second call on that returned state yields the
identical report. -/
theorem compute_metrics_pure_read (s : APCalculator) :
    (APCalculator.compute_metrics s).1 = s
    ∧ (APCalculator.compute_metrics ((APCalculator.compute_metrics s).1)).2
        = (APCalculator.compute_metrics s).2 :=
  ⟨rfl, rfl⟩

/-- C1 witness: the greedy matcher evaluated at a concrete sample — one
class-0 prediction matching the single class-0 ground-truth box — has at most
as many true positives as ground-truth boxes. -/
theorem step_greedy_matching_witness :
    (greedyMatch exIou (1/2) (classGts exGts 0)
        ((sortByConf (classPreds exPreds 0)).map Prod.snd)).count true
      ≤ (classGts exGts 0).length :=
  (step_greedy_matching exIou (1/2) 0 exPreds exGts 0 {} 0 (by decide)).2.2.2.2

theorem runSchedule_getElem {Box : Type} (iou : Box → Box → ℚ) :
    ∀ (sched : List (ℕ × Batch Box)) (l : List APCalculator) (j : ℕ) (a : APCalculator),
      l[j]? = some a →
      (runSchedule iou sched l)[j]?
        = some ((batchesFor sched j).foldl (fun st b => APCalculator.step iou b st) a)
  | [], l, j, a, h => by simpa [runSchedule, batchesFor] using h
  | ib :: rest, l, j, a, h => by
    by_cases hj : ib.1 = j
    · subst hj
      have hlt : ib.1 < l.length := (List.getElem?_eq_some.mp h).1
      have hset : (l.set ib.1 (APCalculator.step iou ib.2 a))[ib.1]?
          = some (APCalculator.step iou ib.2 a) := List.getElem?_set_self hlt
      simp only [runSchedule, h]
      rw [runSchedule_getElem iou rest _ _ _ hset]
      simp [batchesFor, List.filter_cons]
    · rcases hs : l[ib.1]? with _ | s
      · simp only [runSchedule, hs]
        rw [runSchedule_getElem iou rest l j a h]
        simp [batchesFor, List.filter_cons, hj]
      · have hkeep : (l.set ib.1 (APCalculator.step iou ib.2 s))[j]? = some a := by
          rw [List.getElem?_set_ne hj]
          exact h
        simp only [runSchedule, hs]
        rw [runSchedule_getElem iou rest _ j a hkeep]
        simp [batchesFor, List.filter_cons, hj]

theorem runSchedule_length {Box : Type} (iou : Box → Box → ℚ) :
    ∀ (sched : List (ℕ × Batch Box)) (l : List APCalculator),
      (runSchedule iou sched l).length = l.length
  | [], _ => rfl
  | ib :: rest, l => by
    rcases hs : l[ib.1]? with _ | s
    · simp only [runSchedule, hs]
      exact runSchedule_length iou rest l
    · simp only [runSchedule, hs]
      rw [runSchedule_length iou rest _]
      exact List.length_set l ib.1 _

/-- C8: the per-batch loop of evaluate_one_epoch feeds the same parsed
prediction/ground-truth lists to every calculator in the per-threshold list
(src/eval.py lines 227-230); because each step touches only its own
calculator's state, any schedule of step operations — any order, any
interleaving across calculators — in which each calculator receives the full
batch sequence in order leaves every calculator in exactly the state it
reaches by stepping through the batches in list order, hence with the same
final metrics. -/
theorem ap_calculators_order_independent {Box : Type} (iou : Box → Box → ℚ)
    (sched : List (ℕ × Batch Box)) (calcs : List APCalculator) (batches : List (Batch Box))
    (h : ∀ j, j < calcs.length → batchesFor sched j = batches) :
    runSchedule iou sched calcs
      = calcs.map (fun s => batches.foldl (fun st b => APCalculator.step iou b st) s) := by
  apply List.ext_getElem?
  intro j
  by_cases hj : j < calcs.length
  · have ha : calcs[j]? = some calcs[j] := List.getElem?_eq_getElem hj
    rw [runSchedule_getElem iou sched calcs j _ ha, h j hj, List.getElem?_map, ha]
    rfl
  · have h1 : (runSchedule iou sched calcs)[j]? = none := by
      apply List.getElem?_eq_none
      rw [runSchedule_length iou sched calcs]
      omega
    have h2 : (calcs.map (fun s => batches.foldl (fun st b => APCalculator.step iou b st) s))[j]?
        = none := by
      apply List.getElem?_eq_none
      rw [List.length_map]
      omega
    rw [h1, h2]

/-- C8 witness: two calculators, two batches, an interleaved schedule — the
final states equal those of in-order stepping. -/
theorem ap_calculators_order_independent_witness :
    runSchedule exIou exSched exCalcs
      = exCalcs.map
          (fun s => [exBatchA, exBatchB].foldl (fun st b => APCalculator.step exIou b st) s) :=
  ap_calculators_order_independent exIou exSched exCalcs [exBatchA, exBatchB]
    (by
      intro j hj
      have h2 : j < 2 := hj
      interval_cases j
      · rfl
      · rfl)

/-- C4: when per-class NMS is requested without 3D NMS, the module top level
fails at the flag-validation assert (src/eval.py lines 55-56) — the startup
trace records no completed phase, so no dataset loading, model construction
or batch processing has begun. -/
theorem cls_nms_rejected_before_loading (f : Flags)
    (h1 : f.use_cls_nms = true) (h2 : f.use_3d_nms = false) :
    (startupTrace f).2 = some "AssertionError: use_cls_nms requires use_3d_nms"
    ∧ (startupTrace f).1 = []
    ∧ StartupPhase.datasetLoad ∉ (startupTrace f).1
    ∧ StartupPhase.modelBuild ∉ (startupTrace f).1
    ∧ StartupPhase.batchProcessing ∉ (startupTrace f).1 := by
  have hT : (startupTrace f)
      = ([], some "AssertionError: use_cls_nms requires use_3d_nms") := by
    simp [startupTrace, h1, h2]
  rw [hT]
  simp

/-- C4 witness: the default flags with use_cls_nms set are rejected at the
flag check. -/
theorem cls_nms_rejected_before_loading_witness :
    (startupTrace { defaultFlags with use_cls_nms := true }).2
      = some "AssertionError: use_cls_nms requires use_3d_nms" :=
  (cls_nms_rejected_before_loading { defaultFlags with use_cls_nms := true } rfl rfl).1

/-- C9: for every flag assignment, CONFIG_DICT sets remove_empty_box to the
negation of faster_eval and passes nms_iou and conf_thresh through; with no
command-line flags supplied, nms_iou is 0.25 (= 1/4) and conf_thresh is 0.05
(= 1/20), both as argparse defaults and in the resulting configuration. -/
theorem config_dict_remove_empty_box_and_defaults (f : Flags) :
    (mkConfigDict f).remove_empty_box = !f.faster_eval
    ∧ (mkConfigDict f).nms_iou = f.nms_iou
    ∧ (mkConfigDict f).conf_thresh = f.conf_thresh
    ∧ defaultFlags.nms_iou = 1/4
    ∧ defaultFlags.conf_thresh = 1/20
    ∧ (mkConfigDict defaultFlags).nms_iou = 1/4
    ∧ (mkConfigDict defaultFlags).conf_thresh = 1/20 :=
  ⟨rfl, rfl, rfl, rfl, rfl, rfl, rfl⟩

theorem exceptOk_bind {α β : Type} (x : α) (f : α → Except String β) :
    (Except.ok x >>= f) = f x := rfl

theorem exceptError_bind {α β : Type} (e : String) (f : α → Except String β) :
    ((Except.error e : Except String α) >>= f) = Except.error e := rfl

/-- C5 counterexample: a concrete batch (one sample, one proposal with
positive-objectness probability 3/10, so zero detected positives at
obj_pos_prob = 1/2) makes the compute_false_stat block raise
ZeroDivisionError at the pos_prec ratio (src/eval.py line 212), refuting the
claim that these statistics do not raise for a batch with zero
detected-positive proposals. -/
theorem false_stat_counterexample :
    falseStatUpdate (1/2) (1/2) [[(3 : ℚ)/10]] [[1]] [[1]] {}
      = Except.error "ZeroDivisionError: float division by zero" := by
  unfold falseStatUpdate
  norm_num [pyDiv, detPosMask, detNegMask, matSub, matMul, matSum,
    exceptOk_bind, exceptError_bind]

/-- C5 (amended): in APCalculator.compute_metrics a class with zero
denominators is excluded rather than fatal, but evaluate_one_epoch's
per-batch objectness statistics are unguarded Python float divisions: for
every nonempty batch whose detected-positive total is zero, the
compute_false_stat block raises ZeroDivisionError (at the pos_prec ratio,
src/eval.py line 212) instead of recording a zero contribution. -/
theorem false_stat_zero_det_pos_raises (posProb negProb : ℚ) (prob : List (List ℚ))
    (label mask : List (List ℤ)) (st : StatDict)
    (hne : prob ≠ []) (hdp : matSum (detPosMask posProb prob) = 0) :
    falseStatUpdate posProb negProb prob label mask st
      = Except.error "ZeroDivisionError: float division by zero" := by
  have hdpq : ((matSum (detPosMask posProb prob) : ℤ) : ℚ) = 0 := by
    exact_mod_cast hdp
  unfold falseStatUpdate
  simp [pyDiv, hne, hdpq, exceptOk_bind, exceptError_bind]

/-- C5 witness: a concrete one-sample batch with probability 2/5 (zero
detected positives at threshold 1/2) raises. -/
theorem false_stat_zero_det_pos_raises_witness :
    falseStatUpdate (1/2) (1/2) [[(2 : ℚ)/5]] [[0]] [[1]] {}
      = Except.error "ZeroDivisionError: float division by zero" :=
  false_stat_zero_det_pos_raises (1/2) (1/2) [[(2 : ℚ)/5]] [[0]] [[1]] {}
    (by simp) (by norm_num [detPosMask, matSum])

/-- C10: evaluate_one_epoch requires at least one batch — with an empty
dataloader it fails (NameError on the unbound loop variable batch_idx when
compute_false_stat pre-populated stat_dict, otherwise KeyError on the missing
loss key) instead of returning a mean loss, while with at least one batch it
returns the mean of the per-batch losses. -/
theorem evaluate_one_epoch_requires_batches (cfs : Bool) (l : List ℚ) (hl : l ≠ []) :
    evaluateOneEpochLoss true [] = Except.error "NameError: name batch_idx is not defined"
    ∧ evaluateOneEpochLoss false [] = Except.error "KeyError: loss"
    ∧ evaluateOneEpochLoss cfs l = Except.ok (l.sum / (l.length : ℚ)) := by
  refine ⟨rfl, rfl, ?_⟩
  have h1 : l.isEmpty = false := by
    cases l
    · exact absurd rfl hl
    · rfl
  simp [evaluateOneEpochLoss, h1]

/-- C10 witness: a single batch of loss 2 yields mean loss 2. -/
theorem evaluate_one_epoch_requires_batches_witness :
    evaluateOneEpochLoss true [2] = Except.ok 2 := by
  have h := (evaluate_one_epoch_requires_batches true [2] (by simp)).2.2
  simpa using h
